import Mathlib

/-!
Shallow embedding of the pitch-interpolating sample playback engine of
Tone.js (r11-dev): `Tone.MultiSampler` (src/Tone/instrument/MultiSampler.js),
`Tone.BufferSource` (src/Tone/source/BufferSource.js), and the helpers they
use from the core module (src/Tone/core/Tone.js).

Conventions of the embedding:
* JS numbers holding times, durations, gains and MIDI notes are modelled as
  exact rationals (`ℚ`) resp. integers (`ℤ`); the playback-rate value,
  produced by `Math.pow(2, interval/12)`, is modelled as exact real
  exponentiation (`ℝ`).
* JS object property keys are strings; an integer used as an object key goes
  through the ECMAScript number-to-string coercion, modelled by `intToKey`.
* Fallible operations return `Except`; JS `throw` is `Except.error`.
* The external audio context (gain automation, timers) is recorded in the
  state as a list of issued automation commands and a pending timer value.
-/

/-- Decimal digit character: `digitChar n` is the character for the digit
`n < 10` (code point `48 + n`). -/
def digitChar (n : ℕ) : Char := Char.ofNat (48 + n)

/-- Decimal digits of `n`, most significant first; `fuel` bounds the
recursion and `fuel = n + 1` always suffices.  Models the ECMAScript
number-to-string conversion on nonnegative integers. -/
def natKeyAux : ℕ → ℕ → List Char
  | 0, _ => []
  | fuel + 1, n =>
    if n < 10 then [digitChar n]
    else natKeyAux fuel (n / 10) ++ [digitChar (n % 10)]

/-- Decimal spelling of a natural number. -/
def natKey (n : ℕ) : List Char := natKeyAux (n + 1) n

/-- The JS object key an integral number coerces to: `69 ↦ "69"`,
`-5 ↦ "-5"`.  Models the ECMAScript ToString coercion applied to numeric
property keys such as `urlMap[mid]` and `this._buffers.has(midi + interval)`. -/
def intToKey (m : ℤ) : String :=
  if m < 0 then String.mk ('-' :: natKey (-m).toNat) else String.mk (natKey m.toNat)

/-- A string that is a decimal spelling of an integer: an optional leading
minus sign followed by one or more decimal digits.  Formalises "the stored
key is an integer MIDI note" for string-keyed JS objects. -/
def isIntKeyString (s : String) : Bool :=
  match s.data with
  | [] => false
  | c :: rest =>
    if c = '-' then !rest.isEmpty && rest.all Char.isDigit
    else c.isDigit && rest.all Char.isDigit

/-- A flat character, case-insensitively (the source regex carries the `i`
flag). -/
def isFlatChar (c : Char) : Bool := c = 'b' || c = 'B'

/-- An accidental character of the pitch-notation regex: `b`, `#` or `x`,
case-insensitively. -/
def isAccidental (c : Char) : Bool :=
  c = 'b' || c = 'B' || c = '#' || c = 'x' || c = 'X'

/-- Matches the regex fragment `-?[0-9]+` at the head of the character list.
The source regex has no end anchor, so anything after the first digit is
ignored. -/
def octaveTail : List Char → Bool
  | '-' :: c :: _ => c.isDigit
  | c :: _ => c.isDigit
  | [] => false

/-- Semitone value of a pitch letter (case-insensitive): C=0, D=2, E=4, F=5,
G=7, A=9, B=11; `none` for characters outside `a`-`g`. -/
def letterSemitone (c : Char) : Option ℤ :=
  if c = 'c' || c = 'C' then some 0
  else if c = 'd' || c = 'D' then some 2
  else if c = 'e' || c = 'E' then some 4
  else if c = 'f' || c = 'F' then some 5
  else if c = 'g' || c = 'G' then some 7
  else if c = 'a' || c = 'A' then some 9
  else if c = 'b' || c = 'B' then some 11
  else none

/-- Character-list matcher for the `Tone.isNote` regex
`^([a-g]{1}(?:b|#|x|bb)?)(-?[0-9]+)/i` (src/Tone/core/Tone.js line 452):
a pitch letter, an optional accidental (`b`, `#`, `x` or `bb`), then an
optionally negative octave number; trailing characters are ignored. -/
def isNoteChars : List Char → Bool
  | c :: rest =>
    (letterSemitone c).isSome &&
      (octaveTail rest ||
        (match rest with
         | a :: rest2 =>
           (isAccidental a && octaveTail rest2) ||
             (match rest2 with
              | b2 :: rest3 => isFlatChar a && isFlatChar b2 && octaveTail rest3
              | [] => false)
         | [] => false))
  | [] => false

/-- `Tone.isNote` (src/Tone/core/Tone.js lines 451-453): whether a string is
in scientific pitch notation, by the regex above.  Non-string JS arguments
are handled at the `JsVal` level. -/
def isNote (s : String) : Bool := isNoteChars s.data

/-- Accidental shift: `#` is +1, `x` is +2, a flat is -1 (a double flat is
handled by the caller). -/
def accidentalValue (c : Char) : ℤ :=
  if c = '#' then 1 else if c = 'x' || c = 'X' then 2 else -1

/-- Leading decimal digits of a character list as a natural number;
`none` when the list does not start with a digit. -/
def parseLeadingNat (l : List Char) : Option ℕ :=
  let ds := l.takeWhile Char.isDigit
  if ds.isEmpty then none
  else some (ds.foldl (fun acc c => 10 * acc + (c.toNat - 48)) 0)

/-- Parses the octave part `-?[0-9]+` of a pitch string. -/
def parseOctave : List Char → Option ℤ
  | '-' :: rest => (parseLeadingNat rest).map (fun n => -(n : ℤ))
  | rest => (parseLeadingNat rest).map (fun n => (n : ℤ))

/-- Modelled from the spec: the external PitchCodec
(`Tone.Frequency(note).toMidi()`, whose module is not among the sources)
converts scientific pitch notation to an integer MIDI note with A4 = 69 and
12 semitones per octave, so `midi = 12 * (octave + 1) + letter + accidental`.
Trailing characters after the octave digits are ignored, mirroring the
unanchored source regex. -/
def specToMidi (s : String) : Option ℤ :=
  match s.data with
  | [] => none
  | c :: rest =>
    match letterSemitone c with
    | none => none
    | some sem =>
      let (shift, rest2) :=
        match rest with
        | a :: b2 :: rest3 =>
          if isFlatChar a && isFlatChar b2 && octaveTail rest3 then ((-2 : ℤ), rest3)
          else if isAccidental a && octaveTail (b2 :: rest3) then (accidentalValue a, b2 :: rest3)
          else ((0 : ℤ), rest)
        | a :: rest3 =>
          if isAccidental a && octaveTail rest3 then (accidentalValue a, rest3)
          else ((0 : ℤ), rest)
        | [] => ((0 : ℤ), [])
      match parseOctave rest2 with
      | none => none
      | some oct => some (12 * (oct + 1) + sem + shift)

/-- Models the success condition of ECMAScript `parseFloat` as used in
`!isNaN(parseFloat(note))`: after optional whitespace and an optional sign,
the string must start with a digit, a decimal point followed by a digit, or
the literal `Infinity`. -/
def jsParseFloatSucceeds (s : String) : Bool :=
  let l := s.data.dropWhile Char.isWhitespace
  let l2 := match l with
    | '+' :: r => r
    | '-' :: r => r
    | r => r
  match l2 with
  | 'I' :: 'n' :: 'f' :: 'i' :: 'n' :: 'i' :: 't' :: 'y' :: _ => true
  | '.' :: d :: _ => d.isDigit
  | c :: _ => c.isDigit
  | [] => false

/-- A JS value used as a note key: either a (finite, integral MIDI) number
or a string. -/
inductive JsVal where
  | num (n : ℤ)
  | str (s : String)
deriving DecidableEq

/-- `Tone.isNote` on a JS value: only strings can match the regex. -/
def jsValIsNote : JsVal → Bool
  | JsVal.num _ => false
  | JsVal.str s => isNote s

/-- Whether `parseFloat` of the value is not NaN: a finite number always
parses; a string parses by `jsParseFloatSucceeds`. -/
def jsValParseFloatOk : JsVal → Bool
  | JsVal.num _ => true
  | JsVal.str s => jsParseFloatSucceeds s

/-- The object key the value coerces to when used as a property name. -/
def jsValKey : JsVal → String
  | JsVal.num n => intToKey n
  | JsVal.str s => s

/-- MIDI note of a pitch-notation JS value (only reached under a successful
`jsValIsNote` test, which only strings pass). -/
def jsValToMidi : JsVal → ℤ
  | JsVal.num _ => 0
  | JsVal.str s => (specToMidi s).getD 0

/-- A string-keyed JS object holding the sample sources (`urlMap`,
`Tone.Buffers`); first-match lookup together with replacing insertion gives
the JS last-write-wins overwrite semantics. -/
abbrev Bank (β : Type) : Type := List (String × β)

/-- Property assignment `obj[key] = v`: replaces an existing entry for the
key or appends a fresh one. -/
def bankInsert {β : Type} : Bank β → String → β → Bank β
  | [], key, v => [(key, v)]
  | (k, v0) :: rest, key, v =>
    if k = key then (key, v) :: rest else (k, v0) :: bankInsert rest key v

/-- Property read `obj[key]`. -/
def bankLookup {β : Type} : Bank β → String → Option β
  | [], _ => none
  | (k, v) :: rest, key => if k = key then some v else bankLookup rest key

/-- `Tone.Buffers.has(midi)` for a numeric key: membership after the
number-to-string key coercion. -/
def bankHas {β : Type} (b : Bank β) (midi : ℤ) : Bool :=
  (bankLookup b (intToKey midi)).isSome

/-- Error raised on an invalid sample key ("url keys must be the note's
pitch"). -/
inductive SamplerError where
  | invalidKey
deriving DecidableEq

/-- The `urlMap` construction loop of the `Tone.MultiSampler` constructor
(src/Tone/instrument/MultiSampler.js lines 28-40): pitch-notation keys are
converted to their MIDI integer, keys accepted by `parseFloat` are kept
verbatim, anything else throws. -/
def buildUrlMapAux {β : Type} (acc : Bank β) : List (String × β) → Except SamplerError (Bank β)
  | [] => Except.ok acc
  | (note, url) :: rest =>
    if isNote note then
      buildUrlMapAux (bankInsert acc (intToKey ((specToMidi note).getD 0)) url) rest
    else if jsParseFloatSucceeds note then
      buildUrlMapAux (bankInsert acc note url) rest
    else Except.error SamplerError.invalidKey

/-- `Tone.MultiSampler.prototype.add` (src/Tone/instrument/MultiSampler.js
lines 160-171): the same key normalisation as the constructor, for a single
entry; the source argument is stored untouched. -/
def MultiSampler.add {β : Type} (bank : Bank β) (note : JsVal) (url : β) :
    Except SamplerError (Bank β) :=
  if jsValIsNote note then
    Except.ok (bankInsert bank (intToKey (jsValToMidi note)) url)
  else if jsValParseFloatOk note then
    Except.ok (bankInsert bank (jsValKey note) url)
  else Except.error SamplerError.invalidKey

/-- Loop body of the expanding nearest-sample search
`Tone.MultiSampler.prototype._findClosest`
(src/Tone/instrument/MultiSampler.js lines 89-102), parameterised by the
membership test of the buffer store.  The loop `while (interval <
MAX_INTERVAL)` with `interval++` performs exactly `MAX_INTERVAL - interval`
further iterations, so that count is carried as structural fuel: fuel 0
corresponds to `interval = MAX_INTERVAL = 24` and returns `null`.  Each
iteration probes `midi + interval` (a sample above the target) first,
returning `-interval`, then `midi - interval` (below), returning
`interval`. -/
def findClosestGo (has : ℤ → Bool) (midi : ℤ) : ℕ → ℕ → Option ℤ
  | _, 0 => none
  | interval, fuel + 1 =>
    if has (midi + (interval : ℤ)) then some (-(interval : ℤ))
    else if has (midi - (interval : ℤ)) then some (interval : ℤ)
    else findClosestGo has midi (interval + 1) fuel

/-- `_findClosest`: the search started at `interval = 0` with
`MAX_INTERVAL = 24` iterations available. -/
def findClosest (has : ℤ → Bool) (midi : ℤ) : Option ℤ :=
  findClosestGo has midi 0 24

/-- A decoded audio buffer handle (`Tone.Buffer`): its duration in seconds
and whether loading has completed.  An unset buffer is one that is not
loaded. -/
structure Buffer where
  duration : ℚ
  loaded : Bool
deriving DecidableEq

/-- Errors thrown by `Tone.BufferSource.start`/`stop`:
"Tone.BufferSource can only be started once." and
"Tone.BufferSource: buffer is either not set or not loaded.". -/
inductive VoiceError where
  | alreadyStarted
  | bufferNotReady
deriving DecidableEq

/-- A gain-automation command issued to the envelope gain node of a Voice
(`this._gainNode.gain`). -/
inductive GainEvent where
  | setValue (value : ℚ) (time : ℚ)
  | linearRamp (value : ℚ) (time : ℚ)
  | cancelAfter (time : ℚ)
deriving DecidableEq

/-- The state of one `Tone.BufferSource` Voice
(src/Tone/source/BufferSource.js).  `startTime` and `stopTime` carry the
unset sentinel `-1` as in the source; `gainEvents` records the automation
commands issued to the external context, `pendingTimeout` the due time of
the pending `onended` timer, and `playedAt` the `(time, offset)` passed to
the native source node's `start`. -/
structure BufferSourceState where
  startTime : ℚ := -1
  stopTime : ℚ := -1
  buffer : Buffer
  playbackRate : ℝ := 1
  fadeIn : ℚ := 0
  fadeOut : ℚ := 0
  gain : ℚ := 1
  loop : Bool := false
  loopStart : ℚ := 0
  loopEnd : ℚ := 0
  gainEvents : List GainEvent := []
  pendingTimeout : Option ℚ := none
  playedAt : Option (ℚ × ℚ) := none

/-- The duration of one sample frame, `this.sampleTime = 1 / sampleRate`;
the external context's rate is fixed at the default 44100 Hz (its exact
value plays no role in any claim). -/
def sampleTime : ℚ := 1 / 44100

/-- ECMAScript truncating division result (`Math.trunc(q)`): rounding toward
zero, as the JS `%` operator uses. -/
def jsTrunc (q : ℚ) : ℤ := if 0 ≤ q then ⌊q⌋ else -⌊-q⌋

/-- The ECMAScript remainder `a % b` on exact rationals. -/
def jsMod (a b : ℚ) : ℚ := a - b * (jsTrunc (a / b) : ℚ)

/-- `Tone.BufferSource.prototype.stop` (src/Tone/source/BufferSource.js
lines 230-264): requires a loaded buffer; resolves the fade-out, records
`stopTime = time + fadeOut`, cancels automation after
`startTime + sampleTime`, clamps the envelope time to `startTime`, issues
the fade-out ramp (or an immediate cut), and reschedules the `onended`
timer for `stopTime`. -/
def BufferSource.stop (s : BufferSourceState) (time : ℚ) (fadeOutTime : Option ℚ) :
    Except VoiceError BufferSourceState :=
  if s.buffer.loaded then
    let f := fadeOutTime.getD s.fadeOut
    let stopT := time + f
    let t := max s.startTime time
    let ev := s.gainEvents ++ [GainEvent.cancelAfter (s.startTime + sampleTime)] ++
      (if f > 0 then [GainEvent.setValue s.gain t, GainEvent.linearRamp 0 (t + f)]
       else [GainEvent.setValue 0 t])
    Except.ok { s with stopTime := stopT, gainEvents := ev, pendingTimeout := some stopT }
  else Except.error VoiceError.bufferNotReady

/-- Lines 202-215 of `start`: the loop-offset wrap (an offset beyond the
loop end is remapped into the loop window), the write of `loopEnd` to the
native node (`this.loopEnd || this.buffer.duration`, i.e. the buffer
duration when `loopEnd` is the falsy 0), and the native `start(time,
offset)`. -/
def startPlayback (s : BufferSourceState) (time offset0 : ℚ) : BufferSourceState :=
  let offset :=
    if s.loop then
      let loopEndV := if s.loopEnd = 0 then s.buffer.duration else s.loopEnd
      let loopDuration := loopEndV - s.loopStart
      if offset0 > loopEndV then jsMod (offset0 - s.loopStart) loopDuration + s.loopStart
      else offset0
    else offset0
  { s with
    loopEnd := if s.loopEnd = 0 then s.buffer.duration else s.loopEnd,
    playedAt := some (time, offset) }

/-- `Tone.BufferSource.prototype.start` (src/Tone/source/BufferSource.js
lines 153-221).  Throws `alreadyStarted` when `startTime` is no longer the
`-1` sentinel; otherwise requires a loaded buffer; resolves the offset
(loop start when looping, else 0), the gain (default 1) and the fade-in;
issues the fade-in envelope; records the effective start time
`time + fadeIn`; resolves the duration (default `buffer.duration - offset`,
floored at 0, and clipped to `buffer.duration - offset` when not looping)
and, unless looping without an explicit duration, issues the automatic
`stop(time + computedDur + fadeIn, fadeIn)` — returned in the second
component as the `(stop time, fade-out override)` that was scheduled —
before beginning playback. -/
def BufferSource.start (s : BufferSourceState) (time : ℚ)
    (offset duration gain fadeInTime : Option ℚ) :
    Except VoiceError (BufferSourceState × Option (ℚ × ℚ)) :=
  if s.startTime ≠ -1 then Except.error VoiceError.alreadyStarted
  else if s.buffer.loaded then
    let off := offset.getD (if s.loop then s.loopStart else 0)
    let g := gain.getD 1
    let f := fadeInTime.getD s.fadeIn
    let ev :=
      if f > 0 then [GainEvent.setValue 0 time, GainEvent.linearRamp g (time + f)]
      else [GainEvent.setValue g time]
    let s1 := { s with gain := g, gainEvents := s.gainEvents ++ ev, startTime := time + f }
    let computedDur0 := max (duration.getD (s.buffer.duration - off)) 0
    if !s.loop || duration.isSome then
      let computedDur :=
        if s.loop then computedDur0 else min computedDur0 (s.buffer.duration - off)
      match BufferSource.stop s1 (time + computedDur + f) (some f) with
      | Except.ok s2 => Except.ok (startPlayback s2 time off, some (time + computedDur + f, f))
      | Except.error e => Except.error e
    else
      Except.ok (startPlayback s1 time off, none)
  else Except.error VoiceError.bufferNotReady

/-- Play states of `Tone.State` (Paused is unused by BufferSource). -/
inductive ToneState where
  | started
  | stopped
deriving DecidableEq

/-- The derived `state` property of `Tone.BufferSource`
(src/Tone/source/BufferSource.js lines 130-139), with the clock time `now`
made explicit: Started iff `startTime !== -1 && now >= startTime &&
now < stopTime`, else Stopped. -/
def BufferSource.stateAt (s : BufferSourceState) (now : ℚ) : ToneState :=
  if s.startTime ≠ -1 ∧ s.startTime ≤ now ∧ now < s.stopTime then ToneState.started
  else ToneState.stopped

/-- The `Tone.BufferSource` constructor as invoked by
`MultiSampler.triggerAttack` with options `buffer`, `playbackRate`,
`fadeIn` and `fadeOut`; the remaining fields take the constructor
defaults. -/
def BufferSource.create (buffer : Buffer) (playbackRate : ℝ) (fadeIn fadeOut : ℚ) :
    BufferSourceState :=
  { buffer := buffer, playbackRate := playbackRate, fadeIn := fadeIn, fadeOut := fadeOut }

/-- The state a successful `stop` call produces (the call itself returns it
inside `Except.ok`; on an error the input state is returned unchanged,
matching a thrown JS exception that leaves the object untouched). -/
def stopValue (s : BufferSourceState) (time : ℚ) (fadeOutTime : Option ℚ) : BufferSourceState :=
  match BufferSource.stop s time fadeOutTime with
  | Except.ok s2 => s2
  | Except.error _ => s

/-- The state a successful `start` call produces. -/
def startValue (s : BufferSourceState) (time : ℚ)
    (offset duration gain fadeInTime : Option ℚ) : BufferSourceState :=
  match BufferSource.start s time offset duration gain fadeInTime with
  | Except.ok (s2, _) => s2
  | Except.error _ => s

/-- The `(stop time, fade-out override)` of the automatic stop a successful
`start` call scheduled, `none` when it scheduled none (or the call threw). -/
def startAuto (s : BufferSourceState) (time : ℚ)
    (offset duration gain fadeInTime : Option ℚ) : Option (ℚ × ℚ) :=
  match BufferSource.start s time offset duration gain fadeInTime with
  | Except.ok (_, a) => a
  | Except.error _ => none

/-- The interval-to-playback-ratio conversion
`Tone.intervalToFrequencyRatio` (src/Tone/core/Tone.js lines 549-551):
`Math.pow(2, interval / 12)`, modelled as exact real exponentiation. -/
noncomputable def intervalToFrequencyRate (interval : ℤ) : ℝ :=
  2 ^ ((interval : ℝ) / 12)

/-- State of a `Tone.MultiSampler`: the sample bank (`this._buffers`), the
active-voice registry keyed by requested MIDI note
(`this._activeSources`; each JS entry `{note, source}` stores the key
itself as `note`, so only the source is kept), and the configured `attack`
and `release` envelope times. -/
structure MultiSamplerState where
  bank : Bank Buffer
  activeSources : List (ℤ × List BufferSourceState)
  attack : ℚ
  release : ℚ

/-- Registry read `this._activeSources[midi]` (`none` models a missing
property). -/
def getQueue : List (ℤ × List BufferSourceState) → ℤ → Option (List BufferSourceState)
  | [], _ => none
  | (k, q) :: rest, midi => if k = midi then some q else getQueue rest midi

/-- Registry write `this._activeSources[midi] = q`. -/
def setQueue : List (ℤ × List BufferSourceState) → ℤ → List BufferSourceState →
    List (ℤ × List BufferSourceState)
  | [], midi, q => [(midi, q)]
  | (k, q0) :: rest, midi, q =>
    if k = midi then (midi, q) :: rest else (k, q0) :: setQueue rest midi q

/-- Lines 126-132 of `triggerAttack`: create the queue when absent, then
`push` the new voice at its end. -/
def pushVoice (r : List (ℤ × List BufferSourceState)) (midi : ℤ) (v : BufferSourceState) :
    List (ℤ × List BufferSourceState) :=
  match getQueue r midi with
  | some q => setQueue r midi (q ++ [v])
  | none => setQueue r midi [v]

/-- Stands for the `undefined` of a JS property read that misses; never
reached from `triggerAttack` because `_findClosest` only returns distances
of present keys. -/
def undefinedBuffer : Buffer := { duration := 0, loaded := false }

/-- `Tone.MultiSampler.prototype.triggerAttack`
(src/Tone/instrument/MultiSampler.js lines 110-135), with the note already
resolved to its MIDI integer (the resolution `Tone.Frequency(note).toMidi()`
lives in an external module): when `_findClosest` misses, do nothing;
otherwise fetch the buffer at `midi - difference`, build a voice with
playback rate `intervalToFrequencyRatio(difference)`, fade-in `attack` and
fade-out `release`, start it with `(time, 0, buffer.duration, velocity)`,
and append it to the registry queue of the requested note. -/
noncomputable def MultiSampler.triggerAttack (st : MultiSamplerState) (midi : ℤ)
    (time : ℚ) (velocity : Option ℚ) : Except VoiceError MultiSamplerState :=
  match findClosest (bankHas st.bank) midi with
  | none => Except.ok st
  | some difference =>
    let closestNote := midi - difference
    let buffer := (bankLookup st.bank (intToKey closestNote)).getD undefinedBuffer
    let source := BufferSource.create buffer (intervalToFrequencyRate difference)
      st.attack st.release
    match BufferSource.start source time (some 0) (some buffer.duration) velocity none with
    | Except.ok (source2, _) =>
      Except.ok { st with activeSources := pushVoice st.activeSources midi source2 }
    | Except.error e => Except.error e

/-- `Tone.MultiSampler.prototype.triggerRelease`
(src/Tone/instrument/MultiSampler.js lines 142-149), with the note already
resolved to MIDI: when the queue for the note exists and is non-empty,
`shift()` its oldest voice out and `stop(time, this.release)` it (the
stopped voice is returned alongside the new state); otherwise do nothing. -/
def MultiSampler.triggerRelease (st : MultiSamplerState) (midi : ℤ) (time : ℚ) :
    Except VoiceError (MultiSamplerState × Option BufferSourceState) :=
  match getQueue st.activeSources midi with
  | some (v :: rest) =>
    match BufferSource.stop v time (some st.release) with
    | Except.ok v2 =>
      Except.ok ({ st with activeSources := setQueue st.activeSources midi rest }, some v2)
    | Except.error e => Except.error e
  | some [] => Except.ok (st, none)
  | none => Except.ok (st, none)

/-- `n` sequential `triggerRelease` calls for the same note, collecting the
stopped voices in call order (the iteration itself is proof scaffolding;
each step is exactly `MultiSampler.triggerRelease`). -/
def releaseSeq (midi : ℤ) (time : ℚ) :
    MultiSamplerState → ℕ → Except VoiceError (MultiSamplerState × List BufferSourceState)
  | st, 0 => Except.ok (st, [])
  | st, n + 1 =>
    match MultiSampler.triggerRelease st midi time with
    | Except.ok (st2, some v) =>
      match releaseSeq midi time st2 n with
      | Except.ok (st3, vs) => Except.ok (st3, v :: vs)
      | Except.error e => Except.error e
    | Except.ok (st2, none) => Except.ok (st2, [])
    | Except.error e => Except.error e

/-- Whether an `Except` result is a success (no exception was thrown). -/
def exceptOk {ε α : Type} : Except ε α → Bool
  | Except.ok _ => true
  | Except.error _ => false

/-- A loaded 2-second buffer used in concrete instantiations. -/
def demoBuffer : Buffer := { duration := 2, loaded := true }

/-- A fresh (never started) voice over a loaded buffer, all options left at
the constructor defaults. -/
def demoVoice : BufferSourceState := { buffer := demoBuffer }

/-- A fresh voice whose buffer has not finished loading. -/
def demoUnloadedVoice : BufferSourceState := { buffer := { duration := 2, loaded := false } }

/-- The `demoVoice` after a successful `start(0)`. -/
def demoStartedVoice : BufferSourceState := startValue demoVoice 0 none none none none

/-- A fresh looping voice over a loaded buffer. -/
def loopDemoVoice : BufferSourceState := { buffer := demoBuffer, loop := true }

/-- A sample bank holding one buffer at MIDI 69 (A4). -/
def demoBank : Bank Buffer := [("69", demoBuffer)]

/-- A sampler owning `demoBank` with an empty registry. -/
def demoSampler : MultiSamplerState :=
  { bank := demoBank, activeSources := [], attack := 0, release := 1 }

/-- Two distinguishable loaded voices for registry-order instantiations. -/
def voiceA : BufferSourceState := { buffer := { duration := 1, loaded := true } }

/-- Second of the two registry demo voices. -/
def voiceB : BufferSourceState := { buffer := { duration := 3, loaded := true } }

/-- A sampler whose registry holds the queue `[voiceA, voiceB]` at MIDI 60. -/
def demoReleaseSampler : MultiSamplerState :=
  { bank := [], activeSources := [(60, [voiceA, voiceB])], attack := 0, release := 1 }

example : findClosest (fun n => decide (n = 69)) 67 = some (-2) := by decide
example : findClosest (fun n => decide (n = 69)) 94 = none := by decide
example : isNote "A4" = true := by decide
example : isNote "nope" = false := by decide
example : isNote "69" = false := by decide
example : specToMidi "A4" = some 69 := by decide
example : specToMidi "G4" = some 67 := by decide
example : specToMidi "A#6" = some 94 := by decide
example : intToKey 69 = "69" := by decide
example : jsParseFloatSucceeds "60.5" = true := by decide
example : jsParseFloatSucceeds "nope" = false := by decide
example : exceptOk (BufferSource.stop demoVoice 0 none) = true := by decide

/-! ## Lemmas about the nearest-sample search -/

/-- Skipping past an initial stretch of misses: if every distance `j` with
`k ≤ j < k + n` misses on both sides, the search from `k` with `n` more
iterations available than `fuel` reaches `k + n` with `fuel` left. -/
theorem findClosestGo_skip (has : ℤ → Bool) (m : ℤ) :
    ∀ (n k fuel : ℕ),
      (∀ j : ℕ, k ≤ j → j < k + n → has (m + (j : ℤ)) = false ∧ has (m - (j : ℤ)) = false) →
      findClosestGo has m k (n + fuel) = findClosestGo has m (k + n) fuel := by
  intro n
  induction n with
  | zero => intro k fuel _; rw [Nat.zero_add, Nat.add_zero]
  | succ n ih =>
    intro k fuel hmiss
    have hk := hmiss k le_rfl (by omega)
    have hstep : findClosestGo has m k (n + fuel + 1) = findClosestGo has m (k + 1) (n + fuel) := by
      show (if has (m + (k : ℤ)) then some (-(k : ℤ))
            else if has (m - (k : ℤ)) then some (k : ℤ)
            else findClosestGo has m (k + 1) (n + fuel)) = _
      rw [hk.1, hk.2]
      simp
    have hrest : findClosestGo has m (k + 1) (n + fuel) = findClosestGo has m (k + 1 + n) fuel := by
      apply ih
      intro j hj1 hj2
      exact hmiss j (by omega) (by omega)
    calc findClosestGo has m k (n + 1 + fuel) = findClosestGo has m k (n + fuel + 1) := by
          rw [show n + 1 + fuel = n + fuel + 1 by omega]
      _ = findClosestGo has m (k + 1) (n + fuel) := hstep
      _ = findClosestGo has m (k + 1 + n) fuel := hrest
      _ = findClosestGo has m (k + (n + 1)) fuel := by rw [show k + 1 + n = k + (n + 1) by omega]

/-- Any hit of the search lies strictly inside the probed window:
starting at `interval` with `fuel` iterations, a returned distance `d` has
`interval ≤ |d| < interval + fuel`. -/
theorem findClosestGo_bound (has : ℤ → Bool) (m : ℤ) :
    ∀ (fuel interval : ℕ) (d : ℤ),
      findClosestGo has m interval fuel = some d →
      interval ≤ d.natAbs ∧ d.natAbs < interval + fuel := by
  intro fuel
  induction fuel with
  | zero => intro interval d h; exact absurd h (by simp [findClosestGo])
  | succ fuel ih =>
    intro interval d h
    rw [show findClosestGo has m interval (fuel + 1) =
        (if has (m + (interval : ℤ)) then some (-(interval : ℤ))
         else if has (m - (interval : ℤ)) then some (interval : ℤ)
         else findClosestGo has m (interval + 1) fuel) from rfl] at h
    by_cases h1 : has (m + (interval : ℤ)) = true
    · rw [if_pos h1] at h
      obtain rfl : d = -(interval : ℤ) := by injection h with h; omega
      simp only [Int.natAbs_neg, Int.natAbs_ofNat]
      omega
    · rw [if_neg h1] at h
      by_cases h2 : has (m - (interval : ℤ)) = true
      · rw [if_pos h2] at h
        obtain rfl : d = (interval : ℤ) := by injection h with h; omega
        simp only [Int.natAbs_ofNat]
        omega
      · rw [if_neg h2] at h
        have := ih (interval + 1) d h
        omega

/-- C1: for every MIDI integer `m` and interval `0 < i < 24`, if the bank
holds samples at both `m + i` and `m - i` and none at any smaller distance,
`_findClosest` returns the signed distance `-i`: the equally distant sample
pitched above the target always wins the tie. -/
theorem findClosest_tie_prefers_above (has : ℤ → Bool) (m : ℤ) (i : ℕ)
    (hpos : 0 < i) (hlt : i < 24)
    (habove : has (m + (i : ℤ)) = true) (hbelow : has (m - (i : ℤ)) = true)
    (hnone : ∀ j : ℕ, j < i → has (m + (j : ℤ)) = false ∧ has (m - (j : ℤ)) = false) :
    findClosest has m = some (-(i : ℤ)) := by
  have hskip := findClosestGo_skip has m i 0 (24 - i)
    (by intro j hj1 hj2; exact hnone j (by omega))
  rw [Nat.zero_add, show i + (24 - i) = 24 from by omega] at hskip
  unfold findClosest
  rw [hskip]
  have hfuel : 24 - i = (24 - i - 1) + 1 := by omega
  rw [hfuel]
  show (if has (m + (i : ℤ)) then some (-(i : ℤ))
        else if has (m - (i : ℤ)) then some (i : ℤ)
        else findClosestGo has m (i + 1) (24 - i - 1)) = some (-(i : ℤ))
  rw [habove]
  simp

/-- C1 witness: the bank `{67, 71}` around target 69 at distance 2. -/
theorem findClosest_tie_prefers_above_witness :
    findClosest (fun n => decide (n = 67 ∨ n = 71)) 69 = some (-2) :=
  findClosest_tie_prefers_above (fun n => decide (n = 67 ∨ n = 71)) 69 2
    (by decide) (by decide) (by decide) (by decide)
    (by decide)

/-- C2: a returned signed distance always satisfies `|d| ≤ 23 =
MAX_INTERVAL - 1` (so a sample exactly 24 semitones away is never selected
even when present, the search returning `null` instead), and the no-match
outcome is not an error: `triggerAttack` then returns the sampler state
unchanged — no voice is created and the active-voice registry is
untouched. -/
theorem findClosest_bounded_and_no_match_silent :
    (∀ (has : ℤ → Bool) (m d : ℤ), findClosest has m = some d → d.natAbs ≤ 23) ∧
    (∀ (st : MultiSamplerState) (midi : ℤ) (time : ℚ) (velocity : Option ℚ),
      findClosest (bankHas st.bank) midi = none →
      MultiSampler.triggerAttack st midi time velocity = Except.ok st) := by
  constructor
  · intro has m d h
    have := findClosestGo_bound has m 24 0 d h
    omega
  · intro st midi time velocity h
    unfold MultiSampler.triggerAttack
    rw [h]

/-- C2 witness: with only A4 (MIDI 69) in the bank, the match for MIDI 67 is
within the bound and `triggerAttack` at MIDI 94 (distance 25, the spec's
`A#6` example) silently returns the sampler unchanged. -/
theorem findClosest_bounded_and_no_match_silent_witness :
    Int.natAbs (-2) ≤ 23 ∧
    MultiSampler.triggerAttack demoSampler 94 0 none = Except.ok demoSampler :=
  ⟨findClosest_bounded_and_no_match_silent.1 (bankHas demoBank) 67 (-2) (by decide),
   findClosest_bounded_and_no_match_silent.2 demoSampler 94 0 none (by decide)⟩

/-! ## Lemmas about the Voice state machine -/

/-- A `stop` on a loaded buffer succeeds with the `stopValue` state. -/
theorem stop_ok_eq (s : BufferSourceState) (time : ℚ) (fadeOutTime : Option ℚ)
    (h : s.buffer.loaded = true) :
    BufferSource.stop s time fadeOutTime = Except.ok (stopValue s time fadeOutTime) := by
  unfold stopValue BufferSource.stop
  rw [h]
  simp

/-- A `stop` call only touches `stopTime`, `gainEvents` and
`pendingTimeout`. -/
theorem stopValue_fields (s : BufferSourceState) (time : ℚ) (fadeOutTime : Option ℚ) :
    (stopValue s time fadeOutTime).startTime = s.startTime ∧
    (stopValue s time fadeOutTime).buffer = s.buffer ∧
    (stopValue s time fadeOutTime).playbackRate = s.playbackRate ∧
    (stopValue s time fadeOutTime).loop = s.loop := by
  unfold stopValue BufferSource.stop
  by_cases h : s.buffer.loaded = true
  · simp [h]
  · simp [h]

/-- The `stopTime` a successful `stop` records: `time + fadeOut` with the
override winning over the configured fade-out. -/
theorem stopValue_stopTime (s : BufferSourceState) (time : ℚ) (fadeOutTime : Option ℚ)
    (h : s.buffer.loaded = true) :
    (stopValue s time fadeOutTime).stopTime = time + fadeOutTime.getD s.fadeOut := by
  unfold stopValue BufferSource.stop
  rw [h]
  simp

/-- A `start` on a voice that was already started throws, before looking at
anything else. -/
theorem start_already_started (s : BufferSourceState) (time : ℚ)
    (offset duration gain fadeInTime : Option ℚ) (h : s.startTime ≠ -1) :
    BufferSource.start s time offset duration gain fadeInTime =
      Except.error VoiceError.alreadyStarted := by
  unfold BufferSource.start
  rw [if_pos h]

/-- A `start` on a fresh voice with a loaded buffer succeeds, producing the
`startValue` state and the `startAuto` automatic-stop record. -/
theorem start_ok_eq (s : BufferSourceState) (time : ℚ)
    (offset duration gain fadeInTime : Option ℚ)
    (h1 : s.startTime = -1) (h2 : s.buffer.loaded = true) :
    BufferSource.start s time offset duration gain fadeInTime =
      Except.ok (startValue s time offset duration gain fadeInTime,
        startAuto s time offset duration gain fadeInTime) := by
  unfold startValue startAuto BufferSource.start
  rw [h1]
  simp only [ne_eq, neg_neg, not_true_eq_false, ite_false, h2, ite_true, if_false, if_true]
  by_cases hc : (!s.loop || duration.isSome) = true
  · rw [stop_ok_eq]
    · simp [hc]
    · exact h2
  · simp [hc]

/-- A successful `start` records the effective start time
`time + fadeIn`. -/
theorem startValue_startTime (s : BufferSourceState) (time : ℚ)
    (offset duration gain fadeInTime : Option ℚ)
    (h1 : s.startTime = -1) (h2 : s.buffer.loaded = true) :
    (startValue s time offset duration gain fadeInTime).startTime =
      time + fadeInTime.getD s.fadeIn := by
  unfold startValue BufferSource.start
  rw [h1]
  simp only [ne_eq, neg_neg, not_true_eq_false, ite_false, h2, ite_true, if_false, if_true]
  by_cases hc : (!s.loop || duration.isSome) = true
  · rw [stop_ok_eq]
    · simp [hc, stopValue, BufferSource.stop, h2, startPlayback]
    · exact h2
  · simp [hc, startPlayback]

/-- A `start` call never touches the buffer binding or the playback rate. -/
theorem startValue_fields (s : BufferSourceState) (time : ℚ)
    (offset duration gain fadeInTime : Option ℚ) :
    (startValue s time offset duration gain fadeInTime).buffer = s.buffer ∧
    (startValue s time offset duration gain fadeInTime).playbackRate = s.playbackRate := by
  unfold startValue BufferSource.start
  by_cases h1 : s.startTime ≠ -1
  · simp [h1]
  · by_cases h2 : s.buffer.loaded = true
    · simp only [h1, ite_false, h2, ite_true, if_false, if_true]
      by_cases hc : (!s.loop || duration.isSome) = true
      · rw [stop_ok_eq]
        · simp [hc, stopValue, BufferSource.stop, h2, startPlayback]
        · exact h2
      · simp [hc, startPlayback]
    · simp [h1, h2]

/-- C4: `start` may succeed at most once per Voice instance.  A voice whose
recorded start time is no longer the `-1` sentinel fails with
`AlreadyStartedError` before anything else is examined; and after any
successful `start` (at a nonnegative clock time with a nonnegative resolved
fade-in, as the scheduler supplies), every further `start` call on the
instance fails with `AlreadyStartedError`, whatever the arguments of either
call were. -/
theorem start_succeeds_at_most_once :
    (∀ (s : BufferSourceState) (time : ℚ) (offset duration gain fadeInTime : Option ℚ),
      s.startTime ≠ -1 →
      BufferSource.start s time offset duration gain fadeInTime =
        Except.error VoiceError.alreadyStarted) ∧
    (∀ (s : BufferSourceState) (time : ℚ) (offset duration gain fadeInTime : Option ℚ)
      (s2 : BufferSourceState) (a : Option (ℚ × ℚ)),
      0 ≤ time → 0 ≤ fadeInTime.getD s.fadeIn →
      BufferSource.start s time offset duration gain fadeInTime = Except.ok (s2, a) →
      ∀ (time2 : ℚ) (offset2 duration2 gain2 fadeInTime2 : Option ℚ),
        BufferSource.start s2 time2 offset2 duration2 gain2 fadeInTime2 =
          Except.error VoiceError.alreadyStarted) := by
  constructor
  · exact start_already_started
  · intro s time offset duration gain fadeInTime s2 a ht hf hok
    intro time2 offset2 duration2 gain2 fadeInTime2
    by_cases h1 : s.startTime = -1
    · by_cases h2 : s.buffer.loaded = true
      · rw [start_ok_eq s time offset duration gain fadeInTime h1 h2] at hok
        injection hok with hok
        obtain ⟨h3, h4⟩ := Prod.mk.inj hok
        apply start_already_started
        rw [← h3, startValue_startTime s time offset duration gain fadeInTime h1 h2]
        intro hEq
        linarith
      · unfold BufferSource.start at hok
        rw [h1] at hok
        simp [h2] at hok
    · rw [start_already_started _ _ _ _ _ _ h1] at hok
      simp at hok

/-- C4 witness: `demoVoice` started successfully at time 0; a second start
at time 1 throws `AlreadyStartedError`. -/
theorem start_succeeds_at_most_once_witness :
    BufferSource.start demoStartedVoice 1 none none none none =
      Except.error VoiceError.alreadyStarted :=
  start_succeeds_at_most_once.2 demoVoice 0 none none none none demoStartedVoice
    (startAuto demoVoice 0 none none none none) (by decide) (by decide)
    (start_ok_eq demoVoice 0 none none none none rfl rfl) 1 none none none none

/-- C5 counterexample: a fresh voice that was never started (its
`startTime` still the `-1` sentinel) over a loaded buffer; calling `stop`
on it succeeds, contradicting the claim that `stop` before `start` fails
with `BufferNotReadyError`. -/
theorem stop_before_start_succeeds :
    demoVoice.startTime = -1 ∧ demoVoice.buffer.loaded = true ∧
    exceptOk (BufferSource.stop demoVoice 0 none) = true ∧
    BufferSource.stop demoVoice 0 none ≠ Except.error VoiceError.bufferNotReady := by
  refine ⟨rfl, rfl, by decide, ?_⟩
  intro h
  have hok : exceptOk (BufferSource.stop demoVoice 0 none) = true := by decide
  rw [h] at hok
  simp [exceptOk] at hok

/-- C5 amended: `stop` fails with `BufferNotReadyError` exactly when the
bound buffer is unset or not loaded; whether `start` was ever called plays
no role, so a `stop` issued before `start` succeeds whenever the buffer is
loaded. -/
theorem stop_fails_iff_buffer_not_loaded :
    ∀ (s : BufferSourceState) (time : ℚ) (fadeOutTime : Option ℚ),
      exceptOk (BufferSource.stop s time fadeOutTime) = s.buffer.loaded ∧
      (s.buffer.loaded = false →
        BufferSource.stop s time fadeOutTime = Except.error VoiceError.bufferNotReady) := by
  intro s time fadeOutTime
  constructor
  · cases h : s.buffer.loaded <;> simp [BufferSource.stop, h, exceptOk]
  · intro h
    unfold BufferSource.stop
    rw [h]
    simp

/-- C5 amended witness: the unloaded demo voice's `stop` throws
`BufferNotReadyError`. -/
theorem stop_fails_iff_buffer_not_loaded_witness :
    BufferSource.stop demoUnloadedVoice 0 none = Except.error VoiceError.bufferNotReady :=
  (stop_fails_iff_buffer_not_loaded demoUnloadedVoice 0 none).2 rfl

/-- C6: duration resolution of a successful `start`.  Not looping: the
automatic stop is scheduled at `time + d + fadeIn` with the fade-in as the
stop's fade-out override, where the resolved duration `d` is clipped to
never exceed `buffer.duration - offset` and defaults to exactly that bound.
Looping with an explicit (nonnegative) duration: that duration is honoured
unclipped.  Looping with no explicit duration: no automatic stop is
scheduled. -/
theorem start_duration_resolution_and_autostop :
    ∀ (s : BufferSourceState) (time : ℚ) (offset duration gain fadeInTime : Option ℚ),
      s.startTime = -1 → s.buffer.loaded = true →
      (s.loop = false →
        startAuto s time offset duration gain fadeInTime =
          some (time +
            min (max (duration.getD (s.buffer.duration - offset.getD 0)) 0)
              (s.buffer.duration - offset.getD 0) + fadeInTime.getD s.fadeIn,
            fadeInTime.getD s.fadeIn) ∧
        min (max (duration.getD (s.buffer.duration - offset.getD 0)) 0)
            (s.buffer.duration - offset.getD 0) ≤ s.buffer.duration - offset.getD 0 ∧
        (duration = none →
          min (max (duration.getD (s.buffer.duration - offset.getD 0)) 0)
              (s.buffer.duration - offset.getD 0) = s.buffer.duration - offset.getD 0)) ∧
      (∀ dur : ℚ, s.loop = true → duration = some dur → 0 ≤ dur →
        startAuto s time offset duration gain fadeInTime =
          some (time + dur + fadeInTime.getD s.fadeIn, fadeInTime.getD s.fadeIn)) ∧
      (s.loop = true → duration = none →
        startAuto s time offset duration gain fadeInTime = none) := by
  intro s time offset duration gain fadeInTime h1 h2
  refine ⟨?_, ?_, ?_⟩
  · intro hl
    refine ⟨?_, min_le_right _ _, ?_⟩
    · unfold startAuto BufferSource.start
      rw [h1]
      simp only [ne_eq, neg_neg, not_true_eq_false, ite_false, h2, ite_true, if_false,
        if_true, hl]
      rw [stop_ok_eq]
      · simp
      · exact h2
    · intro hd
      subst hd
      simp only [Option.getD_none]
      rcases le_total (s.buffer.duration - offset.getD 0) 0 with hle | hle
      · rw [max_eq_right hle, min_eq_right hle]
      · rw [max_eq_left hle, min_self]
  · intro dur hl hd hdur
    subst hd
    unfold startAuto BufferSource.start
    rw [h1]
    simp only [ne_eq, neg_neg, not_true_eq_false, ite_false, h2, ite_true, if_false,
      if_true, hl]
    rw [stop_ok_eq]
    · simp [max_eq_left hdur]
    · exact h2
  · intro hl hd
    subst hd
    unfold startAuto BufferSource.start
    rw [h1]
    simp [h2, hl]

/-- C6 witness: `demoVoice` (2-second buffer, not looping) started at time 1
with requested duration 5 and no offset: the duration is clipped to 2 and
the automatic stop lands at `1 + 2 + 0` with fade-out override 0; the
looping demo voice with no duration schedules no stop. -/
theorem start_duration_resolution_and_autostop_witness :
    startAuto demoVoice 1 none (some 5) none none = some (3, 0) ∧
    startAuto loopDemoVoice 0 none none none none = none := by
  constructor
  · have h := ((start_duration_resolution_and_autostop demoVoice 1 none (some 5) none none
      rfl rfl).1 rfl).1
    refine h.trans ?_
    norm_num [demoVoice, demoBuffer]
  · exact (start_duration_resolution_and_autostop loopDemoVoice 0 none none none none
      rfl rfl).2.2 rfl rfl

/-- C10: a looping voice started (successfully, at a nonnegative clock time
with nonnegative resolved fade-in) without an explicit duration schedules
no automatic stop, so its recorded stop time keeps the `-1` sentinel; the
derived `state` property therefore answers Stopped at every queried clock
time, even though the buffer keeps playing, until an explicit `stop` is
issued. -/
theorem looping_voice_without_duration_reports_stopped :
    ∀ (s : BufferSourceState) (time : ℚ) (offset gain fadeInTime : Option ℚ),
      s.startTime = -1 → s.stopTime = -1 → s.buffer.loaded = true → s.loop = true →
      0 ≤ time → 0 ≤ fadeInTime.getD s.fadeIn →
      exceptOk (BufferSource.start s time offset none gain fadeInTime) = true ∧
      (startValue s time offset none gain fadeInTime).stopTime = -1 ∧
      ∀ now : ℚ,
        BufferSource.stateAt (startValue s time offset none gain fadeInTime) now =
          ToneState.stopped := by
  intro s time offset gain fadeInTime h1 hstop h2 hl ht hf
  have hok := start_ok_eq s time offset none gain fadeInTime h1 h2
  have hstop2 : (startValue s time offset none gain fadeInTime).stopTime = -1 := by
    unfold startValue BufferSource.start
    rw [h1]
    simp [h2, hl, startPlayback]
    exact hstop
  refine ⟨by rw [hok]; rfl, hstop2, ?_⟩
  intro now
  have hst := startValue_startTime s time offset none gain fadeInTime h1 h2
  unfold BufferSource.stateAt
  rw [if_neg]
  rintro ⟨hne, hge, hlt⟩
  rw [hstop2] at hlt
  rw [hst] at hge
  linarith

/-- C10 witness: the looping demo voice started at time 0 with no duration
reports Stopped at clock time 5 while its stop time is still unset. -/
theorem looping_voice_without_duration_reports_stopped_witness :
    exceptOk (BufferSource.start loopDemoVoice 0 none none none none) = true ∧
    (startValue loopDemoVoice 0 none none none none).stopTime = -1 ∧
    BufferSource.stateAt (startValue loopDemoVoice 0 none none none none) 5 =
      ToneState.stopped :=
  ⟨(looping_voice_without_duration_reports_stopped loopDemoVoice 0 none none none
      rfl rfl rfl rfl (by decide) (by decide)).1,
   (looping_voice_without_duration_reports_stopped loopDemoVoice 0 none none none
      rfl rfl rfl rfl (by decide) (by decide)).2.1,
   (looping_voice_without_duration_reports_stopped loopDemoVoice 0 none none none
      rfl rfl rfl rfl (by decide) (by decide)).2.2 5⟩

/-- C3: when the nearest match for the requested MIDI note is at signed
distance `d`, `triggerAttack` constructs its Voice bound to the buffer
stored at key `midi - d`, started with `(time, 0, buffer.duration,
velocity)`, with playback rate `intervalToFrequencyRatio(d) = 2^(d/12)`,
and appends it to the registry queue of the requested note. -/
theorem triggerAttack_binds_nearest_buffer_and_rate :
    ∀ (st : MultiSamplerState) (midi : ℤ) (time : ℚ) (velocity : Option ℚ)
      (d : ℤ) (buf : Buffer),
      findClosest (bankHas st.bank) midi = some d →
      bankLookup st.bank (intToKey (midi - d)) = some buf →
      buf.loaded = true →
      MultiSampler.triggerAttack st midi time velocity =
        Except.ok { st with activeSources := (pushVoice st.activeSources midi
          (startValue
            (BufferSource.create buf (intervalToFrequencyRate d) st.attack st.release)
            time (some 0) (some buf.duration) velocity none)) } ∧
      (startValue
        (BufferSource.create buf (intervalToFrequencyRate d) st.attack st.release)
        time (some 0) (some buf.duration) velocity none).buffer = buf ∧
      (startValue
        (BufferSource.create buf (intervalToFrequencyRate d) st.attack st.release)
        time (some 0) (some buf.duration) velocity none).playbackRate =
          2 ^ ((d : ℝ) / 12) := by
  intro st midi time velocity d buf hfind hlook hload
  refine ⟨?_, ?_, ?_⟩
  · unfold MultiSampler.triggerAttack
    rw [hfind]
    simp only [hlook, Option.getD_some]
    rw [start_ok_eq]
    · rfl
    · exact hload
  · exact (startValue_fields _ _ _ _ _ _).1
  · exact (startValue_fields _ _ _ _ _ _).2

/-- C3 witness: with only A4 (MIDI 69) in the bank, `triggerAttack` at MIDI
67 (G4) matches at distance -2 with ratio `2^(-2/12)`, and at MIDI 69 (A4)
at distance 0 with ratio 1. -/
theorem triggerAttack_binds_nearest_buffer_and_rate_witness :
    findClosest (bankHas demoSampler.bank) 67 = some (-2) ∧
    (startValue
      (BufferSource.create demoBuffer (intervalToFrequencyRate (-2)) 0 1)
      0 (some 0) (some demoBuffer.duration) none none).playbackRate =
        2 ^ (((-2 : ℤ) : ℝ) / 12) ∧
    (startValue
      (BufferSource.create demoBuffer (intervalToFrequencyRate 0) 0 1)
      0 (some 0) (some demoBuffer.duration) none none).playbackRate = 1 := by
  refine ⟨by decide, ?_, ?_⟩
  · exact (triggerAttack_binds_nearest_buffer_and_rate demoSampler 67 0 none (-2) demoBuffer
      (by decide) (by decide) rfl).2.2
  · have h := (triggerAttack_binds_nearest_buffer_and_rate demoSampler 69 0 none 0 demoBuffer
      (by decide) (by decide) rfl).2.2
    refine h.trans ?_
    simp

/-! ## Lemmas about the active-voice registry -/

/-- Reading back the queue a `setQueue` wrote. -/
theorem getQueue_setQueue (r : List (ℤ × List BufferSourceState)) (m : ℤ)
    (q : List BufferSourceState) : getQueue (setQueue r m q) m = some q := by
  induction r with
  | nil => simp [setQueue, getQueue]
  | cons p rest ih =>
    obtain ⟨k, q0⟩ := p
    by_cases h : k = m
    · simp [setQueue, getQueue, h]
    · simp [setQueue, getQueue, h, ih]

/-- Two writes to the same key collapse to the second. -/
theorem setQueue_setQueue (r : List (ℤ × List BufferSourceState)) (m : ℤ)
    (q1 q2 : List BufferSourceState) :
    setQueue (setQueue r m q1) m q2 = setQueue r m q2 := by
  induction r with
  | nil => simp [setQueue]
  | cons p rest ih =>
    obtain ⟨k, q0⟩ := p
    by_cases h : k = m
    · simp [setQueue, h]
    · simp [setQueue, h, ih]

/-- Writing back the queue that is already stored changes nothing. -/
theorem setQueue_self (r : List (ℤ × List BufferSourceState)) (m : ℤ)
    (q : List BufferSourceState) (h : getQueue r m = some q) : setQueue r m q = r := by
  induction r with
  | nil => simp [getQueue] at h
  | cons p rest ih =>
    obtain ⟨k, q0⟩ := p
    by_cases hk : k = m
    · rw [getQueue, if_pos hk] at h
      injection h with h
      subst hk
      rw [setQueue, if_pos rfl, h]
    · rw [getQueue, if_neg hk] at h
      rw [setQueue, if_neg hk, ih h]

/-- `pushVoice` appends the voice at the end of the (possibly fresh)
queue. -/
theorem getQueue_pushVoice (r : List (ℤ × List BufferSourceState)) (m : ℤ)
    (v : BufferSourceState) :
    getQueue (pushVoice r m v) m = some ((getQueue r m).getD [] ++ [v]) := by
  unfold pushVoice
  cases h : getQueue r m <;> simp [h, getQueue_setQueue]

/-- One release on a non-empty queue: the oldest (front) voice is removed
and stopped with the configured release as fade-out. -/
theorem triggerRelease_step (st : MultiSamplerState) (midi : ℤ) (time : ℚ)
    (v : BufferSourceState) (rest : List BufferSourceState)
    (h : getQueue st.activeSources midi = some (v :: rest))
    (hload : v.buffer.loaded = true) :
    MultiSampler.triggerRelease st midi time =
      Except.ok ({ st with activeSources := setQueue st.activeSources midi rest },
        some (stopValue v time (some st.release))) := by
  unfold MultiSampler.triggerRelease
  simp only [h]
  rw [stop_ok_eq _ _ _ hload]

/-- C7: releasing a note whose queue is absent or empty is a no-op — no
error, and the sampler state is returned unchanged; `triggerAttack` appends
at the back of the queue (`pushVoice`), and for a queue `vs` of loaded
voices, `vs.length` sequential `triggerRelease` calls remove and stop the
voices from the front — i.e. in the order their attacks were triggered —
each with the sampler's configured `release` as the stop's fade-out, ending
with the queue empty. -/
theorem triggerRelease_noop_and_fifo :
    (∀ (st : MultiSamplerState) (midi : ℤ) (time : ℚ),
      getQueue st.activeSources midi = none →
      MultiSampler.triggerRelease st midi time = Except.ok (st, none)) ∧
    (∀ (st : MultiSamplerState) (midi : ℤ) (time : ℚ),
      getQueue st.activeSources midi = some [] →
      MultiSampler.triggerRelease st midi time = Except.ok (st, none)) ∧
    (∀ (r : List (ℤ × List BufferSourceState)) (midi : ℤ) (v : BufferSourceState),
      getQueue (pushVoice r midi v) midi = some ((getQueue r midi).getD [] ++ [v])) ∧
    (∀ (st : MultiSamplerState) (midi : ℤ) (time : ℚ) (vs : List BufferSourceState),
      getQueue st.activeSources midi = some vs →
      (∀ v ∈ vs, v.buffer.loaded = true) →
      releaseSeq midi time st vs.length =
        Except.ok ({ st with activeSources := setQueue st.activeSources midi [] },
          vs.map (fun v => stopValue v time (some st.release)))) := by
  refine ⟨?_, ?_, getQueue_pushVoice, ?_⟩
  · intro st midi time h
    unfold MultiSampler.triggerRelease
    simp only [h]
  · intro st midi time h
    unfold MultiSampler.triggerRelease
    simp only [h]
  · intro st midi time vs
    induction vs generalizing st with
    | nil =>
      intro h _
      show Except.ok (st, []) = _
      rw [setQueue_self _ _ _ h]
      rfl
    | cons v rest ih =>
      intro h hload
      have hstep := triggerRelease_step st midi time v rest h (hload v (by simp))
      have hih := ih { st with activeSources := setQueue st.activeSources midi rest }
        (getQueue_setQueue _ _ _) (fun w hw => hload w (by simp [hw]))
      show (match MultiSampler.triggerRelease st midi time with
        | Except.ok (st2, some v) =>
          (match releaseSeq midi time st2 rest.length with
           | Except.ok (st3, vs2) => Except.ok (st3, v :: vs2)
           | Except.error e => Except.error e)
        | Except.ok (st2, none) => Except.ok (st2, [])
        | Except.error e => Except.error e) = _
      rw [hstep]
      simp only [hih]
      simp [setQueue_setQueue]

/-- C7 witness: a registry with queue `[voiceA, voiceB]` at MIDI 60; two
sequential releases stop `voiceA` then `voiceB` — the attack order — and
leave the queue empty. -/
theorem triggerRelease_noop_and_fifo_witness :
    releaseSeq 60 0 demoReleaseSampler 2 =
      Except.ok
        ({ bank := [], activeSources := [(60, [])], attack := 0, release := 1 },
          [stopValue voiceA 0 (some 1), stopValue voiceB 0 (some 1)]) := by
  have h := triggerRelease_noop_and_fifo.2.2.2 demoReleaseSampler 60 0 [voiceA, voiceB]
    rfl (by intro v hv; simp [List.mem_cons] at hv; rcases hv with rfl | rfl <;> rfl)
  exact h

/-- C8 counterexample: `add(69, "G4")` — a numeric key with a malformed
source — does not fail with `InvalidKeyError` as the claim states: the key
69 passes the `parseFloat` test, so the call succeeds and stores the bad
source under key `"69"`. -/
theorem add_numeric_key_with_string_source_succeeds :
    MultiSampler.add ([] : Bank JsVal) (JsVal.num 69) (JsVal.str "G4") =
      Except.ok [("69", JsVal.str "G4")] := by rfl

/-- C8 amended: `add` fails with `InvalidKeyError` exactly when the key is
neither valid pitch notation nor parsable as a number (so
`add("nope", ...)` fails, but `add(69, "G4")` does not — the key 69 is
valid, and the source argument is never validated by `add`); and
`add("A4", b)` and `add("69", b)` both succeed, storing the buffer under
the same key `"69"` (MIDI 69). -/
theorem add_invalid_key_error_iff :
    (∀ (β : Type) (bank : Bank β) (note : JsVal) (url : β),
      (MultiSampler.add bank note url = Except.error SamplerError.invalidKey ↔
        (jsValIsNote note = false ∧ jsValParseFloatOk note = false))) ∧
    (∀ (β : Type) (bank : Bank β) (url : β),
      MultiSampler.add bank (JsVal.str "nope") url =
        Except.error SamplerError.invalidKey) ∧
    (∀ (β : Type) (bank : Bank β) (url : β),
      MultiSampler.add bank (JsVal.str "A4") url = Except.ok (bankInsert bank "69" url) ∧
      MultiSampler.add bank (JsVal.str "69") url = Except.ok (bankInsert bank "69" url)) := by
  refine ⟨?_, ?_, ?_⟩
  · intro β bank note url
    unfold MultiSampler.add
    cases h1 : jsValIsNote note <;> cases h2 : jsValParseFloatOk note <;> simp [h1, h2]
  · intro β bank url
    unfold MultiSampler.add
    have h1 : jsValIsNote (JsVal.str "nope") = false := by decide
    have h2 : jsValParseFloatOk (JsVal.str "nope") = false := by decide
    rw [if_neg (by rw [h1]; simp), if_neg (by rw [h2]; simp)]
  · intro β bank url
    constructor
    · unfold MultiSampler.add
      have h1 : jsValIsNote (JsVal.str "A4") = true := by decide
      have hk : intToKey (jsValToMidi (JsVal.str "A4")) = "69" := by decide
      rw [if_pos h1, hk]
    · unfold MultiSampler.add
      have h1 : jsValIsNote (JsVal.str "69") = false := by decide
      have h2 : jsValParseFloatOk (JsVal.str "69") = true := by decide
      rw [if_neg (by rw [h1]; simp), if_pos h2]
      rfl

/-! ## Lemmas about the stored bank keys -/

/-- The character of a decimal digit is a digit character. -/
theorem digitChar_isDigit {n : ℕ} (h : n < 10) : (digitChar n).isDigit = true := by
  interval_cases n <;> decide

/-- Every character the decimal spelling produces is a digit. -/
theorem natKeyAux_digits : ∀ (fuel n : ℕ), ∀ c ∈ natKeyAux fuel n, c.isDigit = true := by
  intro fuel
  induction fuel with
  | zero => intro n c hc; simp [natKeyAux] at hc
  | succ f ih =>
    intro n c hc
    unfold natKeyAux at hc
    by_cases h : n < 10
    · rw [if_pos h] at hc
      simp at hc
      subst hc
      exact digitChar_isDigit h
    · rw [if_neg h] at hc
      rcases List.mem_append.mp hc with h2 | h2
      · exact ih _ _ h2
      · simp at h2
        subst h2
        exact digitChar_isDigit (Nat.mod_lt _ (by norm_num))

/-- Every character of the decimal spelling of a natural is a digit. -/
theorem natKey_digits (n : ℕ) : ∀ c ∈ natKey n, c.isDigit = true :=
  natKeyAux_digits (n + 1) n

/-- The decimal spelling of a natural number is never empty. -/
theorem natKey_ne_nil (n : ℕ) : natKey n ≠ [] := by
  unfold natKey natKeyAux
  by_cases h : n < 10
  · rw [if_pos h]; simp
  · rw [if_neg h]; simp

/-- The JS string key of any integer passes the integer-key check. -/
theorem isIntKeyString_intToKey (m : ℤ) : isIntKeyString (intToKey m) = true := by
  unfold intToKey
  by_cases h : m < 0
  · rw [if_pos h]
    show isIntKeyString (String.mk ('-' :: natKey (-m).toNat)) = true
    have hne := natKey_ne_nil (-m).toNat
    have hall : ∀ c ∈ natKey (-m).toNat, c.isDigit = true := natKey_digits _
    simp only [isIntKeyString, eq_self_iff_true, if_true]
    rw [Bool.and_eq_true]
    constructor
    · simpa using hne
    · simpa [List.all_eq_true] using hall
  · rw [if_neg h]
    obtain ⟨c, cs, hcs⟩ : ∃ c cs, natKey m.toNat = c :: cs := by
      cases hk : natKey m.toNat with
      | nil => exact absurd hk (natKey_ne_nil _)
      | cons c cs => exact ⟨c, cs, rfl⟩
    have hcd : c.isDigit = true := natKey_digits m.toNat c (by rw [hcs]; simp)
    have hcne : ¬ (c = '-') := by
      intro e
      rw [e] at hcd
      exact absurd hcd (by decide)
    have hall : ∀ x ∈ cs, x.isDigit = true := by
      intro x hx
      exact natKey_digits m.toNat x (by rw [hcs]; simp [hx])
    show isIntKeyString (String.mk (natKey m.toNat)) = true
    rw [hcs]
    simp only [isIntKeyString, if_neg hcne]
    rw [Bool.and_eq_true]
    constructor
    · exact hcd
    · simpa [List.all_eq_true] using hall

/-- Membership after a bank insertion: the inserted pair or an old one. -/
theorem mem_bankInsert {β : Type} (b : Bank β) (key : String) (v : β) :
    ∀ p ∈ bankInsert b key v, p = (key, v) ∨ p ∈ b := by
  induction b with
  | nil =>
    intro p hp
    simp [bankInsert] at hp
    simp [hp]
  | cons kv rest ih =>
    obtain ⟨k, v0⟩ := kv
    intro p hp
    unfold bankInsert at hp
    by_cases h : k = key
    · rw [if_pos h] at hp
      rcases List.mem_cons.mp hp with h2 | h2
      · exact Or.inl h2
      · exact Or.inr (List.mem_cons_of_mem _ h2)
    · rw [if_neg h] at hp
      rcases List.mem_cons.mp hp with h2 | h2
      · exact Or.inr (by simp [h2])
      · rcases ih p h2 with h3 | h3
        · exact Or.inl h3
        · exact Or.inr (List.mem_cons_of_mem _ h3)

/-- Every key the constructor loop stores satisfies the amended key
invariant: converted pitch keys are integer strings, and raw numeric keys
passed the `parseFloat` test. -/
theorem buildUrlMapAux_keys {β : Type} :
    ∀ (urls : List (String × β)) (acc bank : Bank β),
      (∀ p ∈ acc, (isIntKeyString p.1 || jsParseFloatSucceeds p.1) = true) →
      buildUrlMapAux acc urls = Except.ok bank →
      ∀ p ∈ bank, (isIntKeyString p.1 || jsParseFloatSucceeds p.1) = true := by
  intro urls
  induction urls with
  | nil =>
    intro acc bank hacc h
    unfold buildUrlMapAux at h
    injection h with h
    subst h
    exact hacc
  | cons nu rest ih =>
    obtain ⟨note, url⟩ := nu
    intro acc bank hacc h
    unfold buildUrlMapAux at h
    by_cases h1 : isNote note = true
    · rw [if_pos h1] at h
      refine ih _ _ ?_ h
      intro p hp
      rcases mem_bankInsert _ _ _ p hp with h2 | h2
      · rw [h2]
        simp [isIntKeyString_intToKey]
      · exact hacc p h2
    · rw [if_neg h1] at h
      by_cases h2 : jsParseFloatSucceeds note = true
      · rw [if_pos h2] at h
        refine ih _ _ ?_ h
        intro p hp
        rcases mem_bankInsert _ _ _ p hp with h3 | h3
        · rw [h3]
          simp [h2]
        · exact hacc p h3
      · rw [if_neg h2] at h
        exact absurd h (by simp)

/-- C9 counterexample: constructing the sampler with the key `"60.5"` —
accepted by the `parseFloat` branch — stores the key verbatim, so a stored
key need not be an integer MIDI note (and `isIntKeyString` certifies
exactly the decimal integer spellings, which every `intToKey` image
satisfies by `isIntKeyString_intToKey`). -/
theorem constructor_stores_noninteger_key :
    buildUrlMapAux ([] : Bank ℕ) [("60.5", 0)] = Except.ok [("60.5", 0)] ∧
    isIntKeyString "60.5" = false := ⟨by rfl, by decide⟩

/-- C9 amended: the invariant the code actually maintains, at construction
and across every `add`: each stored key is either the decimal string of an
integer MIDI note (every pitch-notation key is converted) or a raw key
that passed the `parseFloat` test — not necessarily an integer. -/
theorem bank_keys_pitch_or_numeric :
    (∀ (β : Type) (urls : List (String × β)) (bank : Bank β),
      buildUrlMapAux [] urls = Except.ok bank →
      ∀ p ∈ bank, (isIntKeyString p.1 || jsParseFloatSucceeds p.1) = true) ∧
    (∀ (β : Type) (bank bank2 : Bank β) (note : JsVal) (url : β),
      (∀ p ∈ bank, (isIntKeyString p.1 || jsParseFloatSucceeds p.1) = true) →
      MultiSampler.add bank note url = Except.ok bank2 →
      ∀ p ∈ bank2, (isIntKeyString p.1 || jsParseFloatSucceeds p.1) = true) := by
  constructor
  · intro β urls bank h
    exact buildUrlMapAux_keys urls [] bank (by intro p hp; simp at hp) h
  · intro β bank bank2 note url hbank hadd p hp
    unfold MultiSampler.add at hadd
    by_cases h1 : jsValIsNote note = true
    · rw [if_pos h1] at hadd
      injection hadd with hadd
      subst hadd
      rcases mem_bankInsert _ _ _ p hp with h2 | h2
      · rw [h2]
        simp [isIntKeyString_intToKey]
      · exact hbank p h2
    · rw [if_neg h1] at hadd
      by_cases h2 : jsValParseFloatOk note = true
      · rw [if_pos h2] at hadd
        injection hadd with hadd
        subst hadd
        rcases mem_bankInsert _ _ _ p hp with h3 | h3
        · rw [h3]
          cases note with
          | num n => simp [jsValKey, isIntKeyString_intToKey]
          | str s =>
            simp only [jsValParseFloatOk] at h2
            simp [jsValKey, h2]
        · exact hbank p h3
      · rw [if_neg h2] at hadd
        exact absurd hadd (by simp)

/-- C9 amended witness: `{"A4": …}` stores the integer key `"69"`, which
passes the amended invariant. -/
theorem bank_keys_pitch_or_numeric_witness :
    buildUrlMapAux ([] : Bank ℕ) [("A4", 0)] = Except.ok [("69", 0)] ∧
    (isIntKeyString "69" || jsParseFloatSucceeds "69") = true :=
  ⟨by rfl,
   bank_keys_pitch_or_numeric.1 ℕ [("A4", 0)] [("69", 0)] (by rfl) ("69", 0) (by simp)⟩

/-- C8 amended witness: the `add("nope", …)` instance of the amended
statement at a concrete bank and source. -/
theorem add_invalid_key_error_iff_witness :
    MultiSampler.add ([] : Bank ℕ) (JsVal.str "nope") 0 =
      Except.error SamplerError.invalidKey :=
  add_invalid_key_error_iff.2.1 ℕ [] 0
